import Mathlib

/-!
Formal model of the `imi` service-report core (src/layout.tsx):
storage-key derivation (`computeStorageKey`), photo pagination
(`paginatePhotos`), photo reordering (`movePhoto`), record
(de)serialization, the localStorage-backed record store
(save/load/enumerate), load-merge semantics, and the logo auto-fill
state machine (`handleChange` plus the company-change effect).

Strings from the source are modelled as Lean `String`s; JavaScript
machine behaviour that the source relies on is modelled explicitly:
`new Date(iso)` on a `YYYY-MM-DD` string (the only shape the app
produces, from `<input type="date">` fields and
`toISOString().slice(0, 10)`) is modelled by `parseISODate`, with the
local-time field extraction read in an environment whose UTC offset is
non-negative (as in the code's own self-tests and deployment locale),
so the local calendar fields equal the ISO components.
-/

namespace IMI

/-- A character kept by the source's `replace(/[^A-Za-z0-9]/g, '')`. -/
def isAlnumChar (c : Char) : Bool :=
  (('A' ≤ c && c ≤ 'Z') || ('a' ≤ c && c ≤ 'z') || ('0' ≤ c && c ≤ '9'))

/-- The vessel part of the storage key, from
`(vessel || 'VESSEL').replace(/[^A-Za-z0-9]/g, '').toUpperCase()`:
the fallback replaces only the empty (falsy) string, before stripping. -/
def normalizeVessel (vessel : String) : String :=
  String.mk (((if vessel = "" then "VESSEL" else vessel).toList.filter
    isAlnumChar).map Char.toUpper)

/-- Decimal value of a digit list (used after an all-digits check). -/
def digitsToNat (l : List Char) : Nat :=
  l.foldl (fun acc c => acc * 10 + (c.toNat - 48)) 0

def isLeapYear (y : Nat) : Bool :=
  (y % 4 = 0 && y % 100 ≠ 0) || y % 400 = 0

def daysInMonth (y m : Nat) : Nat :=
  if m = 2 then (if isLeapYear y then 29 else 28)
  else if m = 4 || m = 6 || m = 9 || m = 11 then 30
  else 31

/-- Model of `new Date(iso)` for a `YYYY-MM-DD` string: `some (year, month, day)`
when the string is a well-formed calendar date, `none` when the JS
parser would yield an Invalid Date (`NaN` fields). -/
def parseISODate (s : String) : Option (Nat × Nat × Nat) :=
  match s.toList.splitOn '-' with
  | [ys, ms, ds] =>
    if ys.length = 4 && ms.length = 2 && ds.length = 2
        && ys.all Char.isDigit && ms.all Char.isDigit && ds.all Char.isDigit then
      let y := digitsToNat ys
      let m := digitsToNat ms
      let d := digitsToNat ds
      if 1 ≤ m && m ≤ 12 && 1 ≤ d && d ≤ daysInMonth y m then
        some (y, m, d)
      else none
    else none
  | _ => none

/-- Model of `String(n).padStart(2, '0')`. -/
def padTwo (n : Nat) : String :=
  let l := (Nat.repr n).toList
  String.mk (List.replicate (2 - l.length) '0' ++ l)

/-- Model of `String(y).slice(-2)`: the last two characters (the whole string
when shorter). -/
def lastTwoDigits (y : Nat) : String :=
  let l := (Nat.repr y).toList
  String.mk (l.drop (l.length - 2))

/-- Source function `computeStorageKey(vessel, baseISO)`, src/layout.tsx lines 57-64.
On an unparseable date the JS getters return `NaN`, so
`String(NaN).padStart(2,'0') = "NaN"` and `String(NaN).slice(-2) = "aN"`. -/
def computeStorageKey (vessel baseISO : String) : String :=
  let vesselKey := normalizeVessel vessel
  match parseISODate baseISO with
  | some (y, m, d) =>
    vesselKey ++ padTwo d ++ padTwo m ++ lastTwoDigits y
  | none => vesselKey ++ "NaN" ++ "NaN" ++ "aN"

-- -----------------------------
-- Photos and pagination
-- -----------------------------

/-- Source type `Photo = \x7b id: string; src: string; caption: string \x7d`. -/
structure Photo where
  id : String
  src : String
  caption : String
deriving DecidableEq, Repr

/-- The source's chunking loop
`for (let i = 0; i < rest.length; i += 4) groups.push(rest.slice(i, i + 4))`. -/
def chunk4 {α : Type} : List α → List (List α)
  | [] => []
  | [a] => [[a]]
  | [a, b] => [[a, b]]
  | [a, b, c] => [[a, b, c]]
  | a :: b :: c :: d :: rest => [a, b, c, d] :: chunk4 rest

/-- Result of `paginatePhotos`. -/
structure Pagination where
  firstTwo : List Photo
  groups : List (List Photo)
deriving DecidableEq, Repr

/-- Source function `paginatePhotos(arr)`, src/layout.tsx lines 66-72. -/
def paginatePhotos (arr : List Photo) : Pagination :=
  { firstTwo := arr.take 2, groups := chunk4 (arr.drop 2) }

/-- Source function `movePhoto(idx, dir)`, src/layout.tsx lines 137-144, restricted
to an index of an existing photo (the only calls, from the rendered
photo list, pass such indices): target `t = idx + dir`; when `t` is out
of bounds the list is returned unchanged, otherwise the destructuring
assignment swaps the entries at `idx` and `t`. -/
def movePhoto (prev : List Photo) (idx : Nat) (dir : Int) : List Photo :=
  let t : Int := (idx : Int) + dir
  if t < 0 ∨ (prev.length : Int) ≤ t then prev
  else
    match prev[idx]?, prev[t.toNat]? with
    | some a, some b => (prev.set idx b).set t.toNat a
    | _, _ => prev

-- -----------------------------
-- JSON values and the persisted record format
-- -----------------------------

/-- Structural option-valued map (all-or-nothing), used by the decoders. -/
def mapOption {α β : Type} (f : α → Option β) : List α → Option (List β)
  | [] => some []
  | x :: xs => (f x).bind fun y => (mapOption f xs).map fun ys => y :: ys

/-- A JSON value, the result of a successful `JSON.parse`. -/
inductive Json where
  | null
  | bool (b : Bool)
  | num (n : Int)
  | str (s : String)
  | arr (elts : List Json)
  | obj (fields : List (String × Json))
deriving Repr

/-- Property access `v.name` (or `v?.name`): defined on objects,
`undefined` (here `none`) on everything else. -/
def Json.getField (v : Json) (name : String) : Option Json :=
  match v with
  | .obj fields => (fields.find? (fun f => f.1 = name)).map (fun f => f.2)
  | _ => none

def Json.asString? : Json → Option String
  | .str s => some s
  | _ => none

def Json.asStringList? : Json → Option (List String)
  | .arr xs => mapOption Json.asString? xs
  | _ => none

/-- JavaScript truthiness of a JSON value. -/
def Json.truthy : Json → Bool
  | .null => false
  | .bool b => b
  | .num n => n ≠ 0
  | .str s => s ≠ ""
  | .arr _ => true
  | .obj _ => true

/-- Test `typeof data === 'object'` for a non-null parse result: JSON objects
and arrays (null is already excluded by the preceding `!data` check). -/
def Json.isObjectLike : Json → Bool
  | .obj _ => true
  | .arr _ => true
  | _ => false

/-- The two issuing companies (`COMPANIES` keys, src/layout.tsx 31-48). -/
inductive CompanyId where
  | IMI
  | ITI
deriving DecidableEq, Repr

def encodeCompanyId : CompanyId → String
  | .IMI => "IMI"
  | .ITI => "ITI"

def decodeCompanyId (s : String) : Option CompanyId :=
  if s = "IMI" then some .IMI
  else if s = "ITI" then some .ITI
  else none

/-- Source constant `COMPANIES[id].logoUrl` (src/layout.tsx lines 38 and 46). -/
def companyLogoUrl : CompanyId → String
  | .IMI => "https://imicorp.com.sg/wp-content/uploads/2025/09/logo-small.png"
  | .ITI => "https://imicorp.com.sg/wp-content/uploads/2025/09/ITI-CORPORATION-LOGO.png"

/-- The form state record (src/layout.tsx lines 86-104), fields in
source order. -/
structure ReportForm where
  companyId : CompanyId
  reportType : String
  customer : String
  vessel : String
  referenceNo : String
  jobNumber : String
  jobDateStart : String
  jobDateEnd : String
  location : String
  serviceTypes : List String
  serviceTypeOther : String
  equipmentMakeModel : String
  findings : String
  summary : String
  recommendations : String
  preparedBy : String
  logoUrl : String
deriving DecidableEq, Repr

/-- The initial form state (src/layout.tsx lines 86-104). -/
def initialForm : ReportForm where
  companyId := .IMI
  reportType := "SERVICE REPORT"
  customer := ""
  vessel := ""
  referenceNo := ""
  jobNumber := ""
  jobDateStart := ""
  jobDateEnd := ""
  location := ""
  serviceTypes := ["Troubleshooting"]
  serviceTypeOther := ""
  equipmentMakeModel := ""
  findings := ""
  summary := ""
  recommendations := ""
  preparedBy := ""
  logoUrl := companyLogoUrl .IMI

/-- A persisted snapshot `{ form, photos }` (src/layout.tsx line 203). -/
structure Record where
  form : ReportForm
  photos : List Photo
deriving DecidableEq, Repr

def encodePhoto (p : Photo) : Json :=
  Json.obj [("id", Json.str p.id), ("src", Json.str p.src), ("caption", Json.str p.caption)]

def decodePhoto (v : Json) : Option Photo := do
  let id ← (v.getField "id").bind Json.asString?
  let src ← (v.getField "src").bind Json.asString?
  let caption ← (v.getField "caption").bind Json.asString?
  pure { id := id, src := src, caption := caption }

def encodeForm (f : ReportForm) : Json :=
  Json.obj [("companyId", Json.str (encodeCompanyId f.companyId)),
        ("reportType", Json.str f.reportType),
        ("customer", Json.str f.customer),
        ("vessel", Json.str f.vessel),
        ("referenceNo", Json.str f.referenceNo),
        ("jobNumber", Json.str f.jobNumber),
        ("jobDateStart", Json.str f.jobDateStart),
        ("jobDateEnd", Json.str f.jobDateEnd),
        ("location", Json.str f.location),
        ("serviceTypes", Json.arr (f.serviceTypes.map Json.str)),
        ("serviceTypeOther", Json.str f.serviceTypeOther),
        ("equipmentMakeModel", Json.str f.equipmentMakeModel),
        ("findings", Json.str f.findings),
        ("summary", Json.str f.summary),
        ("recommendations", Json.str f.recommendations),
        ("preparedBy", Json.str f.preparedBy),
        ("logoUrl", Json.str f.logoUrl)]

def decodeForm (v : Json) : Option ReportForm :=
  match ((v.getField "companyId").bind Json.asString?).bind decodeCompanyId,
        (v.getField "reportType").bind Json.asString?,
        (v.getField "customer").bind Json.asString?,
        (v.getField "vessel").bind Json.asString?,
        (v.getField "referenceNo").bind Json.asString?,
        (v.getField "jobNumber").bind Json.asString?,
        (v.getField "jobDateStart").bind Json.asString?,
        (v.getField "jobDateEnd").bind Json.asString?,
        (v.getField "location").bind Json.asString?,
        (v.getField "serviceTypes").bind Json.asStringList?,
        (v.getField "serviceTypeOther").bind Json.asString?,
        (v.getField "equipmentMakeModel").bind Json.asString?,
        (v.getField "findings").bind Json.asString?,
        (v.getField "summary").bind Json.asString?,
        (v.getField "recommendations").bind Json.asString?,
        (v.getField "preparedBy").bind Json.asString?,
        (v.getField "logoUrl").bind Json.asString? with
  | some companyId, some reportType, some customer, some vessel,
    some referenceNo, some jobNumber, some jobDateStart, some jobDateEnd,
    some location, some serviceTypes, some serviceTypeOther,
    some equipmentMakeModel, some findings, some summary,
    some recommendations, some preparedBy, some logoUrl =>
    some { companyId := companyId, reportType := reportType,
           customer := customer, vessel := vessel, referenceNo := referenceNo,
           jobNumber := jobNumber, jobDateStart := jobDateStart,
           jobDateEnd := jobDateEnd, location := location,
           serviceTypes := serviceTypes, serviceTypeOther := serviceTypeOther,
           equipmentMakeModel := equipmentMakeModel, findings := findings,
           summary := summary, recommendations := recommendations,
           preparedBy := preparedBy, logoUrl := logoUrl }
  | _, _, _, _, _, _, _, _, _, _, _, _, _, _, _, _, _ => none

/-- Serialization `JSON.stringify` of the snapshot, at the JSON-value level. -/
def encodeRecord (r : Record) : Json :=
  Json.obj [("form", encodeForm r.form), ("photos", Json.arr (r.photos.map encodePhoto))]

/-- Deserialization of a parsed value into a full record (the shape the
save path writes, read back by `loadFromStorage` lines 224-226). -/
def decodeRecord (v : Json) : Option Record :=
  match (v.getField "form").bind decodeForm, v.getField "photos" with
  | some form, some (Json.arr ps) =>
    (mapOption decodePhoto ps).bind fun photos =>
      some { form := form, photos := photos }
  | _, _ => none

/-- Reading of a stored `photos` value at schema type: an array of
photo objects. -/
def decodePhotoList (v : Json) : Option (List Photo) :=
  match v with
  | .arr ps => mapOption decodePhoto ps
  | _ => none

-- -----------------------------
-- The localStorage-backed record store
-- -----------------------------

/-- A raw stored string, abstracted by what `JSON.parse` does to it: a
string `JSON.parse` accepts is identified with the value it parses to
(`JSON.stringify` of a record produces exactly such a string), and a
string it rejects — including the empty string — is an opaque blob. -/
inductive RawValue where
  | json (v : Json)
  | invalid (s : String)

/-- Model of `JSON.parse`, total: failure is `none` (the thrown `SyntaxError`
is always caught by the callers in src/layout.tsx). -/
def parseRaw : RawValue → Option Json
  | .json v => some v
  | .invalid _ => none

/-- JavaScript truthiness of a raw stored string (the `!raw` checks):
only the empty string is falsy, and every string `JSON.parse` accepts
is non-empty. -/
def RawValue.falsy : RawValue → Bool
  | .json _ => false
  | .invalid s => s = ""

/-- The localStorage key space: key/value pairs in enumeration order,
keys unique. -/
abbrev Store : Type := List (String × RawValue)

/-- Model of `localStorage.setItem(k, v)`: overwrites in place, appends new keys. -/
def setItem : Store → String → RawValue → Store
  | [], k, v => [(k, v)]
  | (k', v') :: rest, k, v =>
    if k' = k then (k, v) :: rest else (k', v') :: setItem rest k v

/-- Model of `localStorage.getItem(k)`: `none` models the `null` of a missing key. -/
def getItem : Store → String → Option RawValue
  | [], _ => none
  | (k', v') :: rest, k => if k' = k then some v' else getItem rest k

/-- The store-level write of `saveToStorage` (src/layout.tsx line 204):
`localStorage.setItem(key, JSON.stringify({ form, photos }))`. -/
def put (store : Store) (k : String) (r : Record) : Store :=
  setItem store k (.json (encodeRecord r))

/-- Record-level read used for the save/load round trip: read the raw
value, `JSON.parse` it, and decode the exact record shape the save
path writes. On values written by `put` this coincides with the
source's load path; the source itself performs no validation — its
unvalidated merge behaviour is modelled separately by
`loadFromStorage`. -/
def get (store : Store) (k : String) : Option Record :=
  ((getItem store k).bind parseRaw).bind decodeRecord

-- -----------------------------
-- The saved-reports dropdown (`savedList` effect, lines 181-199)
-- -----------------------------

/-- An entry of the saved-reports dropdown. -/
structure SavedItem where
  key : String
  label : String
  preview : Option Json
deriving Repr

/-- Preview extraction `Array.isArray(data?.photos) && data.photos[0]?.src ? data.photos[0].src : undefined`. -/
def previewOf (data : Json) : Option Json :=
  match data.getField "photos" with
  | some (.arr (p :: _)) =>
    match p.getField "src" with
    | some s => if s.truthy then some s else none
    | none => none
  | _ => none

/-- One iteration of the enumeration loop (lines 184-194): the entry is
kept only when the raw value is non-empty (`!raw` skips the falsy empty
string, which `JSON.parse` also rejects), parses, and the parse result
is a truthy object. -/
def savedEntry (key : String) (raw : RawValue) : Option SavedItem :=
  match parseRaw raw with
  | none => none
  | some data =>
    if data.truthy && data.isObjectLike then
      some { key := key, label := key, preview := previewOf data }
    else none

/-- The populated saved-list: parseable object entries, sorted by the
comparator `(a, b) => (a.key < b.key ? 1 : -1)`, i.e. descending
lexicographically by key. -/
def buildSavedList (store : Store) : List SavedItem :=
  (store.filterMap (fun e => savedEntry e.1 e.2)).mergeSort
    (fun a b => decide (b.key ≤ a.key))

-- -----------------------------
-- Load-merge semantics (`loadFromStorage`, line 225)
-- -----------------------------

/-- A loaded `data.form` viewed through the form schema: each field is
present (with its schema type) or absent — e.g. an older snapshot
missing a later-added field. -/
structure PartialReportForm where
  companyId : Option CompanyId := none
  reportType : Option String := none
  customer : Option String := none
  vessel : Option String := none
  referenceNo : Option String := none
  jobNumber : Option String := none
  jobDateStart : Option String := none
  jobDateEnd : Option String := none
  location : Option String := none
  serviceTypes : Option (List String) := none
  serviceTypeOther : Option String := none
  equipmentMakeModel : Option String := none
  findings : Option String := none
  summary : Option String := none
  recommendations : Option String := none
  preparedBy : Option String := none
  logoUrl : Option String := none
deriving DecidableEq, Repr

/-- Merge rule `(prev) => (\x7b ...prev, ...data.form, recommendations:
data.form.recommendations ?? prev.recommendations ?? '' })`
(src/layout.tsx line 225): present fields of the loaded form override,
absent ones keep the current value; `recommendations` falls back to the
current value (always a string here, so the final `?? ''` arm of the
source is unreachable). -/
def mergeLoaded (current : ReportForm) (loaded : PartialReportForm) : ReportForm where
  companyId := loaded.companyId.getD current.companyId
  reportType := loaded.reportType.getD current.reportType
  customer := loaded.customer.getD current.customer
  vessel := loaded.vessel.getD current.vessel
  referenceNo := loaded.referenceNo.getD current.referenceNo
  jobNumber := loaded.jobNumber.getD current.jobNumber
  jobDateStart := loaded.jobDateStart.getD current.jobDateStart
  jobDateEnd := loaded.jobDateEnd.getD current.jobDateEnd
  location := loaded.location.getD current.location
  serviceTypes := loaded.serviceTypes.getD current.serviceTypes
  serviceTypeOther := loaded.serviceTypeOther.getD current.serviceTypeOther
  equipmentMakeModel := loaded.equipmentMakeModel.getD current.equipmentMakeModel
  findings := loaded.findings.getD current.findings
  summary := loaded.summary.getD current.summary
  recommendations := loaded.recommendations.getD current.recommendations
  preparedBy := loaded.preparedBy.getD current.preparedBy
  logoUrl := loaded.logoUrl.getD current.logoUrl

/-- View of an arbitrary loaded `data.form` JSON value through the form
schema: each schema field is read when present with its schema type.
The source's spread would also copy a field carrying a value outside
the schema type (say a number where a string belongs), producing an
ill-typed form this typed state cannot represent; such fields are out
of scope of the model and no claim's input exercises them. -/
def decodePartialForm (v : Json) : PartialReportForm where
  companyId := ((v.getField "companyId").bind Json.asString?).bind decodeCompanyId
  reportType := (v.getField "reportType").bind Json.asString?
  customer := (v.getField "customer").bind Json.asString?
  vessel := (v.getField "vessel").bind Json.asString?
  referenceNo := (v.getField "referenceNo").bind Json.asString?
  jobNumber := (v.getField "jobNumber").bind Json.asString?
  jobDateStart := (v.getField "jobDateStart").bind Json.asString?
  jobDateEnd := (v.getField "jobDateEnd").bind Json.asString?
  location := (v.getField "location").bind Json.asString?
  serviceTypes := (v.getField "serviceTypes").bind Json.asStringList?
  serviceTypeOther := (v.getField "serviceTypeOther").bind Json.asString?
  equipmentMakeModel := (v.getField "equipmentMakeModel").bind Json.asString?
  findings := (v.getField "findings").bind Json.asString?
  summary := (v.getField "summary").bind Json.asString?
  recommendations := (v.getField "recommendations").bind Json.asString?
  preparedBy := (v.getField "preparedBy").bind Json.asString?
  logoUrl := (v.getField "logoUrl").bind Json.asString?

-- -----------------------------
-- Application state and the save path (`saveToStorage`, lines 201-214)
-- -----------------------------

/-- The component state touched by save/load: the form, the photo list,
the backing store, and the feedback message plus dropdown state. -/
structure AppState where
  form : ReportForm
  photos : List Photo
  store : Store
  saveMsg : String
  selectedSavedKey : String
  savedList : List SavedItem

/-- The reactive `storageKey` (src/layout.tsx lines 171-174):
`form.jobDateEnd || form.jobDateStart || today`. -/
def storageKeyOf (today : String) (f : ReportForm) : String :=
  computeStorageKey f.vessel
    (if f.jobDateEnd ≠ "" then f.jobDateEnd
     else if f.jobDateStart ≠ "" then f.jobDateStart
     else today)

/-- Source function `saveToStorage` (src/layout.tsx lines 201-214). `writeOk` is the
environment's verdict on `localStorage.setItem`: `false` means the
write threw (quota exceeded), in which case nothing in the `try` block
after the throwing call runs and the `catch` sets the failure message. -/
def saveToStorage (today : String) (writeOk : Bool) (st : AppState) : AppState :=
  let key := storageKeyOf today st.form
  if writeOk then
    { st with
      store := put st.store key { form := st.form, photos := st.photos }
      saveMsg := "Saved as " ++ key
      selectedSavedKey := key
      savedList :=
        { key := key, label := key,
          preview := (st.photos.head?).map (fun p => Json.str p.src) } ::
          st.savedList.filter (fun i => i.key ≠ key) }
  else { st with saveMsg := "Save failed (data too large)." }

/-- Source function `loadFromStorage` (src/layout.tsx lines 216-232),
for an explicit key `k`: a missing key or the falsy empty string
reports "No saved data for this key"; a string `JSON.parse` rejects,
or a parse result on which `data.form` throws (stored `"null"`),
reports "Load failed."; otherwise NO validation happens: a truthy
`data.form` has its schema fields merged over the current form
(`mergeLoaded` of its `decodePartialForm` view) and a truthy
`data.photos` replaces the photo list (read at schema type; a truthy
non-array would put an ill-typed value into the state, outside this
typed model). The store, selected key and saved list are untouched. -/
def loadFromStorage (st : AppState) (k : String) : AppState :=
  match getItem st.store k with
  | none => { st with saveMsg := "No saved data for this key" }
  | some raw =>
    if raw.falsy then { st with saveMsg := "No saved data for this key" }
    else
      match parseRaw raw with
      | none => { st with saveMsg := "Load failed." }
      | some Json.null => { st with saveMsg := "Load failed." }
      | some data =>
        let form :=
          match data.getField "form" with
          | some fj =>
            if fj.truthy then mergeLoaded st.form (decodePartialForm fj)
            else st.form
          | none => st.form
        let photos :=
          match data.getField "photos" with
          | some pj =>
            if pj.truthy then (decodePhotoList pj).getD st.photos else st.photos
          | none => st.photos
        { st with form := form, photos := photos, saveMsg := "Loaded " ++ k }

-- -----------------------------
-- Logo auto-fill state machine (`handleChange` lines 160-166 and the
-- company effect lines 111-115)
-- -----------------------------

/-- The names of the text/select inputs wired to `handleChange`. -/
inductive FieldName where
  | companyId
  | reportType
  | customer
  | vessel
  | referenceNo
  | jobNumber
  | jobDateStart
  | jobDateEnd
  | location
  | serviceTypeOther
  | equipmentMakeModel
  | preparedBy
  | logoUrl
deriving DecidableEq, Repr

/-- Field update `setForm((f) => (\x7b ...f, [name]: value \x7d))`. The company select
only offers the two valid ids, so an unknown value keeps the current
company. -/
def setFormField (f : ReportForm) (name : FieldName) (value : String) : ReportForm :=
  match name with
  | .companyId => { f with companyId := (decodeCompanyId value).getD f.companyId }
  | .reportType => { f with reportType := value }
  | .customer => { f with customer := value }
  | .vessel => { f with vessel := value }
  | .referenceNo => { f with referenceNo := value }
  | .jobNumber => { f with jobNumber := value }
  | .jobDateStart => { f with jobDateStart := value }
  | .jobDateEnd => { f with jobDateEnd := value }
  | .location => { f with location := value }
  | .serviceTypeOther => { f with serviceTypeOther := value }
  | .equipmentMakeModel => { f with equipmentMakeModel := value }
  | .preparedBy => { f with preparedBy := value }
  | .logoUrl => { f with logoUrl := value }

/-- Form state plus the `logoTouched` flag (src/layout.tsx line 106). -/
structure FormState where
  form : ReportForm
  logoTouched : Bool
deriving Repr

/-- One `handleChange` event followed by the company effect:
`if (name === 'logoUrl') setLogoTouched(true); setForm(...)`, then the
effect on `[form.companyId]` — which React re-runs only when the
company id actually changed — does
`if (!logoTouched && company.logoUrl) setForm((f) => ({ ...f, logoUrl: company.logoUrl }))`. -/
def handleChange (st : FormState) (name : FieldName) (value : String) : FormState :=
  let touched := name = FieldName.logoUrl || st.logoTouched
  let f := setFormField st.form name value
  if f.companyId ≠ st.form.companyId ∧ touched = false ∧
      companyLogoUrl f.companyId ≠ "" then
    { form := { f with logoUrl := companyLogoUrl f.companyId }, logoTouched := touched }
  else { form := f, logoTouched := touched }

-- -----------------------------
-- Helper lemmas
-- -----------------------------

theorem ne_append_left (q p : String) (h : q.data.take p.data.length ≠ p.data) :
    ∀ s : String, q ≠ p ++ s := by
  intro s hq
  apply h
  rw [hq, String.data_append p s, List.take_left]

theorem chunk4_flatten {α : Type} (l : List α) : (chunk4 l).flatten = l := by
  induction l using chunk4.induct with
  | case1 => simp [chunk4]
  | case2 a => simp [chunk4]
  | case3 a b => simp [chunk4]
  | case4 a b c => simp [chunk4]
  | case5 a b c d rest ih => simp [chunk4, ih]

theorem chunk4_mem {α : Type} (l : List α) (g : List α) (hg : g ∈ chunk4 l) :
    g.length ≤ 4 ∧ g ≠ [] := by
  induction l using chunk4.induct with
  | case1 => simp [chunk4] at hg
  | case2 a => simp only [chunk4, List.mem_singleton] at hg; subst hg; simp
  | case3 a b => simp only [chunk4, List.mem_singleton] at hg; subst hg; simp
  | case4 a b c => simp only [chunk4, List.mem_singleton] at hg; subst hg; simp
  | case5 a b c d rest ih =>
    rcases List.mem_cons.mp hg with h | h
    · subst h; simp
    · exact ih h

theorem chunk4_ne_nil {α : Type} {l : List α} (h : chunk4 l = []) : l = [] := by
  cases l with
  | nil => rfl
  | cons a t =>
    cases t with
    | nil => simp [chunk4] at h
    | cons b t2 =>
      cases t2 with
      | nil => simp [chunk4] at h
      | cons c t3 =>
        cases t3 with
        | nil => simp [chunk4] at h
        | cons d rest => simp [chunk4] at h

theorem chunk4_dropLast {α : Type} (l : List α) (g : List α)
    (hg : g ∈ (chunk4 l).dropLast) : g.length = 4 := by
  induction l using chunk4.induct with
  | case1 => simp [chunk4] at hg
  | case2 a => simp [chunk4] at hg
  | case3 a b => simp [chunk4] at hg
  | case4 a b c => simp [chunk4] at hg
  | case5 a b c d rest ih =>
    rw [chunk4] at hg
    by_cases hnil : chunk4 rest = []
    · simp [hnil] at hg
    · rw [List.dropLast_cons_of_ne_nil hnil] at hg
      rcases List.mem_cons.mp hg with h | h
      · subst h; rfl
      · exact ih h

-- -----------------------------
-- C1: the "VESSEL" fallback applies before stripping, not after
-- -----------------------------

/-- C1 counterexample: the claim says that for a vessel name made only
of non-alphanumeric characters the key starts with `"VESSEL"`, but the
source substitutes the fallback only for the empty (falsy) string
before stripping, so `computeStorageKey "-!-" "2025-01-05"` is just the
date part `"050125"` and does not start with `"VESSEL"`. -/
theorem vesselFallback_counterexample :
    "-!-".toList.all (fun c => !isAlnumChar c) = true
    ∧ computeStorageKey "-!-" "2025-01-05" = "050125"
    ∧ (computeStorageKey "-!-" "2025-01-05").data.take "VESSEL".data.length
        ≠ "VESSEL".data := by
  refine ⟨by decide, by decide, by decide⟩

/-- C1 (amended): `deriveKey` substitutes the fallback `"VESSEL"` only
when `vesselName` is the empty string, before stripping and uppercasing;
so the key starts with `"VESSEL"` exactly in the empty case, and a
non-empty vessel name consisting only of non-alphanumeric characters
yields an empty vessel part (the key is just the date digits). -/
theorem vesselFallback_amended (vessel baseISO : String) (y m d : Nat)
    (hp : parseISODate baseISO = some (y, m, d)) :
    (vessel = "" →
      computeStorageKey vessel baseISO =
        "VESSEL" ++ (padTwo d ++ padTwo m ++ lastTwoDigits y))
    ∧ (vessel ≠ "" → (∀ c ∈ vessel.toList, isAlnumChar c = false) →
      computeStorageKey vessel baseISO =
        padTwo d ++ padTwo m ++ lastTwoDigits y) := by
  constructor
  · intro hv
    subst hv
    simp only [computeStorageKey, hp]
    have hn : normalizeVessel "" = "VESSEL" := by decide
    rw [hn, String.append_assoc, String.append_assoc,
      String.append_assoc (padTwo d) (padTwo m) (lastTwoDigits y)]
  · intro hv hall
    simp only [computeStorageKey, hp]
    have h1 : normalizeVessel vessel = "" := by
      unfold normalizeVessel
      rw [if_neg hv]
      have hf : vessel.toList.filter isAlnumChar = [] := by
        simp only [List.filter_eq_nil_iff]
        intro c hc
        simp [hall c hc]
      rw [hf]
      rfl
    rw [h1, String.empty_append]

/-- C1 amended-claim witness at vessel `""` and date `2025-01-05`. -/
theorem vesselFallback_amended_witness :
    parseISODate "2025-01-05" = some (2025, 1, 5)
    ∧ computeStorageKey "" "2025-01-05" =
        "VESSEL" ++ (padTwo 5 ++ padTwo 1 ++ lastTwoDigits 2025) :=
  ⟨by decide, (vesselFallback_amended "" "2025-01-05" 2025 1 5 (by decide)).1 rfl⟩

-- -----------------------------
-- C2: key layout = vessel part + DD + MM + YY
-- -----------------------------

/-- C2: for a parseable reference date, the key is the normalized
vessel part followed by the zero-padded day, the zero-padded month and
the last two digits of the year; concretely
`deriveKey("Sea Wolf", "2025-09-16") = "SEAWOLF160925"` and
`deriveKey("", "2025-01-05")` starts with `"VESSEL"` and ends with
`"050125"`. -/
theorem computeStorageKey_spec :
    (∀ vessel baseISO y m d, parseISODate baseISO = some (y, m, d) →
      computeStorageKey vessel baseISO =
        normalizeVessel vessel ++ padTwo d ++ padTwo m ++ lastTwoDigits y)
    ∧ computeStorageKey "Sea Wolf" "2025-09-16" = "SEAWOLF160925"
    ∧ computeStorageKey "" "2025-01-05" = "VESSEL" ++ "050125" := by
  refine ⟨?_, by decide, by decide⟩
  intro vessel baseISO y m d hp
  simp only [computeStorageKey, hp]

/-- C2 witness at vessel `"Sea Wolf"` and date `2025-09-16`. -/
theorem computeStorageKey_spec_witness :
    parseISODate "2025-09-16" = some (2025, 9, 16)
    ∧ computeStorageKey "Sea Wolf" "2025-09-16" =
        normalizeVessel "Sea Wolf" ++ padTwo 16 ++ padTwo 9 ++ lastTwoDigits 2025 :=
  ⟨by decide, computeStorageKey_spec.1 "Sea Wolf" "2025-09-16" 2025 9 16 (by decide)⟩

-- -----------------------------
-- C3/C4: pagination
-- -----------------------------

/-- C3: `paginatePhotos` returns the first two photos in order as
`firstTwo`, chunks the rest (index ≥ 2) into consecutive order-preserving
groups of at most 4 with only the last group allowed to be shorter
(and no empty group), is total, and maps `[]` to `⟨[], []⟩`. -/
theorem paginatePhotos_spec (l : List Photo) :
    (paginatePhotos l).firstTwo = l.take 2
    ∧ ((paginatePhotos l).groups).flatten = l.drop 2
    ∧ (∀ g ∈ (paginatePhotos l).groups, g.length ≤ 4 ∧ g ≠ [])
    ∧ (∀ g ∈ ((paginatePhotos l).groups).dropLast, g.length = 4)
    ∧ paginatePhotos [] = { firstTwo := [], groups := [] } := by
  refine ⟨rfl, chunk4_flatten _, ?_, ?_, rfl⟩
  · exact fun g hg => chunk4_mem _ g hg
  · exact fun g hg => chunk4_dropLast _ g hg

/-- C3 witness on a 7-photo list: the final short group and a full
earlier group. -/
theorem paginatePhotos_spec_witness :
    (([⟨"6", "x", ""⟩] : List Photo).length ≤ 4
      ∧ ([⟨"6", "x", ""⟩] : List Photo) ≠ [])
    ∧ ([⟨"2", "x", ""⟩, ⟨"3", "x", ""⟩, ⟨"4", "x", ""⟩, ⟨"5", "x", ""⟩] :
        List Photo).length = 4 :=
  ⟨(paginatePhotos_spec [⟨"0", "x", ""⟩, ⟨"1", "x", ""⟩, ⟨"2", "x", ""⟩,
      ⟨"3", "x", ""⟩, ⟨"4", "x", ""⟩, ⟨"5", "x", ""⟩, ⟨"6", "x", ""⟩]).2.2.1
      [⟨"6", "x", ""⟩] (by decide),
   (paginatePhotos_spec [⟨"0", "x", ""⟩, ⟨"1", "x", ""⟩, ⟨"2", "x", ""⟩,
      ⟨"3", "x", ""⟩, ⟨"4", "x", ""⟩, ⟨"5", "x", ""⟩, ⟨"6", "x", ""⟩]).2.2.2.1
      [⟨"2", "x", ""⟩, ⟨"3", "x", ""⟩, ⟨"4", "x", ""⟩, ⟨"5", "x", ""⟩] (by decide)⟩

/-- C4: `firstTwo ++ flatten groups` reproduces the input list — no
photo lost, duplicated, or reordered. -/
theorem paginatePhotos_roundTrip (l : List Photo) :
    (paginatePhotos l).firstTwo ++ ((paginatePhotos l).groups).flatten = l := by
  simp [paginatePhotos, chunk4_flatten]

-- -----------------------------
-- C10: movePhoto
-- -----------------------------

/-- C10: for a direction of ±1 and an index of an existing photo,
`movePhoto` is the identity when the target `idx + dir` is out of
bounds, and otherwise swaps the whole photo values (id, src and caption
travel together) at `idx` and the target while leaving every other
position and the length unchanged. -/
theorem movePhoto_spec (l : List Photo) (idx : Nat) (dir : Int)
    (h : idx < l.length) (hdir : dir = -1 ∨ dir = 1) :
    (((idx : Int) + dir < 0 ∨ (l.length : Int) ≤ (idx : Int) + dir) →
        movePhoto l idx dir = l)
    ∧ (∀ t : Nat, (t : Int) = (idx : Int) + dir → t < l.length →
        (movePhoto l idx dir).length = l.length
        ∧ (movePhoto l idx dir)[idx]? = l[t]?
        ∧ (movePhoto l idx dir)[t]? = l[idx]?
        ∧ (∀ j : Nat, j ≠ idx → j ≠ t → (movePhoto l idx dir)[j]? = l[j]?)) := by
  constructor
  · intro hout
    simp only [movePhoto]
    rw [if_pos hout]
  · intro t ht hlt
    have hne : t ≠ idx := by
      rcases hdir with h1 | h1 <;> subst h1 <;> omega
    have hcond : ¬ ((idx : Int) + dir < 0 ∨ (l.length : Int) ≤ (idx : Int) + dir) := by
      omega
    have htn : ((idx : Int) + dir).toNat = t := by omega
    have hia : l[idx]? = some (l[idx]) := List.getElem?_eq_getElem h
    have hta : l[t]? = some (l[t]) := List.getElem?_eq_getElem hlt
    have hred : movePhoto l idx dir = (l.set idx (l[t])).set t (l[idx]) := by
      simp only [movePhoto]
      rw [if_neg hcond, htn, hia, hta]
    rw [hred]
    refine ⟨by simp, ?_, ?_, ?_⟩
    · rw [List.getElem?_set_ne hne,
        List.getElem?_set_self (by simpa using h), hta]
    · rw [List.getElem?_set_self (by simpa using hlt)]
      exact hia.symm
    · intro j hj1 hj2
      rw [List.getElem?_set_ne (Ne.symm hj2), List.getElem?_set_ne (Ne.symm hj1)]

/-- C10 witness: moving the first of three photos down swaps it with
the second. -/
theorem movePhoto_spec_witness :
    (movePhoto [⟨"a", "x", ""⟩, ⟨"b", "y", ""⟩, ⟨"c", "z", ""⟩] 0 1).length = 3
    ∧ (movePhoto [⟨"a", "x", ""⟩, ⟨"b", "y", ""⟩, ⟨"c", "z", ""⟩] 0 1)[0]? =
        some ⟨"b", "y", ""⟩
    ∧ (movePhoto [⟨"a", "x", ""⟩, ⟨"b", "y", ""⟩, ⟨"c", "z", ""⟩] 0 1)[2]? =
        some ⟨"c", "z", ""⟩ := by
  have hmv := (movePhoto_spec [⟨"a", "x", ""⟩, ⟨"b", "y", ""⟩, ⟨"c", "z", ""⟩]
    0 1 (by decide) (Or.inr rfl)).2 1 (by decide) (by decide)
  refine ⟨hmv.1, ?_, ?_⟩
  · rw [hmv.2.1]; decide
  · rw [hmv.2.2.2 2 (by decide) (by decide)]; decide

-- -----------------------------
-- Serialization round-trip helpers
-- -----------------------------

theorem decode_encode_companyId (c : CompanyId) :
    decodeCompanyId (encodeCompanyId c) = some c := by
  cases c <;> rfl

theorem mapOption_asString_map_str (l : List String) :
    mapOption Json.asString? (l.map Json.str) = some l := by
  induction l with
  | nil => rfl
  | cons x xs ih => simp [mapOption, ih, Json.asString?]

theorem decodeForm_encodeForm (f : ReportForm) :
    decodeForm (encodeForm f) = some f := by
  have h1 : (((encodeForm f).getField "companyId").bind Json.asString?).bind
      decodeCompanyId = some f.companyId := decode_encode_companyId f.companyId
  have h10 : ((encodeForm f).getField "serviceTypes").bind Json.asStringList? =
      some f.serviceTypes := mapOption_asString_map_str f.serviceTypes
  unfold decodeForm
  rw [h1, h10]
  rfl

theorem decodePhoto_encodePhoto (p : Photo) :
    decodePhoto (encodePhoto p) = some p := rfl

theorem mapOption_decodePhoto (ps : List Photo) :
    mapOption decodePhoto (ps.map encodePhoto) = some ps := by
  induction ps with
  | nil => rfl
  | cons p rest ih => simp [mapOption, decodePhoto_encodePhoto, ih]

theorem decodeRecord_encodeRecord (r : Record) :
    decodeRecord (encodeRecord r) = some r := by
  have hf : ((encodeRecord r).getField "form").bind decodeForm = some r.form :=
    decodeForm_encodeForm r.form
  have hpj : (encodeRecord r).getField "photos" =
      some (Json.arr (r.photos.map encodePhoto)) := rfl
  have hp : mapOption decodePhoto (r.photos.map encodePhoto) = some r.photos :=
    mapOption_decodePhoto r.photos
  unfold decodeRecord
  rw [hf, hpj]
  show (mapOption decodePhoto (r.photos.map encodePhoto)).bind
    (fun photos => some { form := r.form, photos := photos }) = some r
  rw [hp]
  rfl

theorem getItem_setItem_self (s : Store) (k : String) (v : RawValue) :
    getItem (setItem s k v) k = some v := by
  induction s with
  | nil => simp [setItem, getItem]
  | cons e rest ih =>
    obtain ⟨k', v'⟩ := e
    by_cases hk : k' = k
    · subst hk
      simp [setItem, getItem]
    · simp [setItem, getItem, hk, ih]

-- -----------------------------
-- C5: merge semantics of loading
-- -----------------------------

/-- C5: merging an empty patch is the identity, and each field absent
from the loaded record keeps its current value. -/
theorem mergeLoaded_spec (current : ReportForm) (loaded : PartialReportForm) :
    mergeLoaded current {} = current
    ∧ (loaded.companyId = none →
        (mergeLoaded current loaded).companyId = current.companyId)
    ∧ (loaded.reportType = none →
        (mergeLoaded current loaded).reportType = current.reportType)
    ∧ (loaded.customer = none →
        (mergeLoaded current loaded).customer = current.customer)
    ∧ (loaded.vessel = none →
        (mergeLoaded current loaded).vessel = current.vessel)
    ∧ (loaded.referenceNo = none →
        (mergeLoaded current loaded).referenceNo = current.referenceNo)
    ∧ (loaded.jobNumber = none →
        (mergeLoaded current loaded).jobNumber = current.jobNumber)
    ∧ (loaded.jobDateStart = none →
        (mergeLoaded current loaded).jobDateStart = current.jobDateStart)
    ∧ (loaded.jobDateEnd = none →
        (mergeLoaded current loaded).jobDateEnd = current.jobDateEnd)
    ∧ (loaded.location = none →
        (mergeLoaded current loaded).location = current.location)
    ∧ (loaded.serviceTypes = none →
        (mergeLoaded current loaded).serviceTypes = current.serviceTypes)
    ∧ (loaded.serviceTypeOther = none →
        (mergeLoaded current loaded).serviceTypeOther = current.serviceTypeOther)
    ∧ (loaded.equipmentMakeModel = none →
        (mergeLoaded current loaded).equipmentMakeModel = current.equipmentMakeModel)
    ∧ (loaded.findings = none →
        (mergeLoaded current loaded).findings = current.findings)
    ∧ (loaded.summary = none →
        (mergeLoaded current loaded).summary = current.summary)
    ∧ (loaded.recommendations = none →
        (mergeLoaded current loaded).recommendations = current.recommendations)
    ∧ (loaded.preparedBy = none →
        (mergeLoaded current loaded).preparedBy = current.preparedBy)
    ∧ (loaded.logoUrl = none →
        (mergeLoaded current loaded).logoUrl = current.logoUrl) := by
  refine ⟨rfl, ?_, ?_, ?_, ?_, ?_, ?_, ?_, ?_, ?_, ?_, ?_, ?_, ?_, ?_, ?_, ?_, ?_⟩ <;>
    (intro h; simp [mergeLoaded, h])

/-- C5 witness: the empty patch leaves a concrete form intact, and a
patch carrying only `customer` leaves `recommendations` intact. -/
theorem mergeLoaded_spec_witness :
    mergeLoaded initialForm {} = initialForm
    ∧ (mergeLoaded initialForm { customer := some "ACME" }).recommendations =
        initialForm.recommendations :=
  ⟨(mergeLoaded_spec initialForm {}).1,
   (mergeLoaded_spec initialForm
     { customer := some "ACME" }).2.2.2.2.2.2.2.2.2.2.2.2.2.2.2.1 rfl⟩

-- -----------------------------
-- C6: read-after-write round trip
-- -----------------------------

/-- C6: a `put` immediately followed by a `get` of the same key in the
same store returns a record equal to the one written, through
serialization and deserialization. -/
theorem put_get_roundTrip (store : Store) (k : String) (r : Record) :
    get (put store k r) k = some r := by
  unfold get put
  rw [getItem_setItem_self]
  simp only [Option.some_bind, parseRaw]
  exact decodeRecord_encodeRecord r

-- -----------------------------
-- C7: quota failure on save
-- -----------------------------

/-- C7: when the storage write fails, `saveToStorage` reports the
failure message — which can never coincide with a success message
`"Saved as " ++ key` — and leaves the form, the photos, the store, the
selected key and the saved list unchanged. -/
theorem saveToStorage_quotaFailure (today : String) (st : AppState) :
    (saveToStorage today false st).form = st.form
    ∧ (saveToStorage today false st).photos = st.photos
    ∧ (saveToStorage today false st).store = st.store
    ∧ (saveToStorage today false st).selectedSavedKey = st.selectedSavedKey
    ∧ (saveToStorage today false st).savedList = st.savedList
    ∧ (saveToStorage today false st).saveMsg = "Save failed (data too large)."
    ∧ (∀ k : String, "Save failed (data too large)." ≠ "Saved as " ++ k) := by
  refine ⟨rfl, rfl, rfl, rfl, rfl, rfl, ?_⟩
  exact ne_append_left _ _ (by decide)

/-- C7 witness at a concrete state. -/
theorem saveToStorage_quotaFailure_witness :
    (saveToStorage "2025-10-11" false
      { form := initialForm, photos := [], store := [], saveMsg := "",
        selectedSavedKey := "", savedList := [] }).saveMsg =
      "Save failed (data too large)."
    ∧ "Save failed (data too large)." ≠ "Saved as " ++ "VESSEL111025" :=
  ⟨(saveToStorage_quotaFailure "2025-10-11"
      { form := initialForm, photos := [], store := [], saveMsg := "",
        selectedSavedKey := "", savedList := [] }).2.2.2.2.2.1,
   (saveToStorage_quotaFailure "2025-10-11"
      { form := initialForm, photos := [], store := [], saveMsg := "",
        selectedSavedKey := "", savedList := [] }).2.2.2.2.2.2 "VESSEL111025"⟩

-- -----------------------------
-- C8: missing and unparseable entries; the load path does not validate
-- -----------------------------

/-- C8 counterexample: the claim says a stored value that fails to
parse as a valid record is treated as absent, but the source's load
path performs no record validation. The stored value
`\x7b"form":\x7b"vessel":"EVIL"\x7d\x7d` parses as JSON yet is not a valid
record (`decodeRecord` rejects it), and `loadFromStorage` still merges
its `vessel` field into the live form and reports a successful load. -/
theorem loadInvalidRecord_counterexample :
    decodeRecord (Json.obj [("form", Json.obj [("vessel", Json.str "EVIL")])]) =
      none
    ∧ (loadFromStorage ⟨initialForm, [],
        [("K", RawValue.json (Json.obj [("form",
          Json.obj [("vessel", Json.str "EVIL")])]))], "", "", []⟩
        "K").form.vessel = "EVIL"
    ∧ initialForm.vessel = ""
    ∧ (loadFromStorage ⟨initialForm, [],
        [("K", RawValue.json (Json.obj [("form",
          Json.obj [("vessel", Json.str "EVIL")])]))], "", "", []⟩
        "K").saveMsg = "Loaded " ++ "K" := by
  refine ⟨by decide, by decide, rfl, by decide⟩

/-- C8 (amended): the load path never raises: a missing key or the
falsy empty stored string reports "No saved data for this key" and an
unparseable stored value (including stored `"null"`, on which the
source's `data.form` access throws into the same catch) reports
"Load failed.", in all these cases leaving form, photos and store
unchanged. A stored value that parses as JSON while not being a valid
record is NOT treated as absent: a truthy `form` member has its schema
fields merged over the current form and the load is reported as a
success. `list()` still skips every entry whose stored value is not
valid parseable JSON, never including it and never raising. -/
theorem loadFromStorage_spec (st : AppState) (k : String) :
    (getItem st.store k = none →
      (loadFromStorage st k).form = st.form
      ∧ (loadFromStorage st k).photos = st.photos
      ∧ (loadFromStorage st k).store = st.store
      ∧ (loadFromStorage st k).saveMsg = "No saved data for this key")
    ∧ (∀ raw, getItem st.store k = some raw → raw.falsy = true →
      (loadFromStorage st k).form = st.form
      ∧ (loadFromStorage st k).photos = st.photos
      ∧ (loadFromStorage st k).store = st.store
      ∧ (loadFromStorage st k).saveMsg = "No saved data for this key")
    ∧ (∀ raw, getItem st.store k = some raw → raw.falsy = false →
        parseRaw raw = none →
      (loadFromStorage st k).form = st.form
      ∧ (loadFromStorage st k).photos = st.photos
      ∧ (loadFromStorage st k).store = st.store
      ∧ (loadFromStorage st k).saveMsg = "Load failed.")
    ∧ (∀ raw, getItem st.store k = some raw → parseRaw raw = some Json.null →
      (loadFromStorage st k).form = st.form
      ∧ (loadFromStorage st k).photos = st.photos
      ∧ (loadFromStorage st k).store = st.store
      ∧ (loadFromStorage st k).saveMsg = "Load failed.")
    ∧ (∀ raw data fj, getItem st.store k = some raw → parseRaw raw = some data →
        data.getField "form" = some fj → fj.truthy = true →
        (loadFromStorage st k).form = mergeLoaded st.form (decodePartialForm fj)
        ∧ (loadFromStorage st k).store = st.store
        ∧ (loadFromStorage st k).saveMsg = "Loaded " ++ k)
    ∧ (∀ item, item ∈ buildSavedList st.store →
        ∃ raw v, (item.key, raw) ∈ st.store ∧ parseRaw raw = some v) := by
  refine ⟨?_, ?_, ?_, ?_, ?_, ?_⟩
  · intro h
    refine ⟨?_, ?_, ?_, ?_⟩ <;> simp [loadFromStorage, h]
  · intro raw h1 h2
    refine ⟨?_, ?_, ?_, ?_⟩ <;> simp [loadFromStorage, h1, h2]
  · intro raw h1 h2 h3
    refine ⟨?_, ?_, ?_, ?_⟩ <;> simp [loadFromStorage, h1, h2, h3]
  · intro raw h1 h2
    cases raw with
    | invalid s => simp [parseRaw] at h2
    | json v =>
      obtain rfl := Option.some.inj h2
      refine ⟨?_, ?_, ?_, ?_⟩ <;> simp [loadFromStorage, h1, RawValue.falsy, parseRaw]
  · intro raw data fj h1 h2 h3 h4
    cases raw with
    | invalid s => simp [parseRaw] at h2
    | json v =>
      obtain rfl : v = data := Option.some.inj h2
      cases v with
      | obj fields =>
        refine ⟨?_, ?_, ?_⟩ <;>
          simp [loadFromStorage, h1, RawValue.falsy, parseRaw, h3, h4]
      | null => simp [Json.getField] at h3
      | bool b => simp [Json.getField] at h3
      | num n => simp [Json.getField] at h3
      | str s2 => simp [Json.getField] at h3
      | arr xs => simp [Json.getField] at h3
  · intro item hmem
    unfold buildSavedList at hmem
    have hmem2 : item ∈ st.store.filterMap (fun e => savedEntry e.1 e.2) :=
      List.mem_mergeSort.mp hmem
    obtain ⟨e, he, hse⟩ := List.mem_filterMap.mp hmem2
    unfold savedEntry at hse
    split at hse
    · simp at hse
    · rename_i data heq
      split at hse
      · obtain rfl := Option.some.inj hse
        exact ⟨e.2, data, by simpa using he, heq⟩
      · simp at hse

/-- C8 amended-claim witness: a missing key, the empty stored string, a
corrupt entry, a stored `"null"`, a partially loaded invalid record,
and a well-formed saved-list entry. -/
theorem loadFromStorage_spec_witness :
    (loadFromStorage ⟨initialForm, [], [], "", "", []⟩ "K").saveMsg =
      "No saved data for this key"
    ∧ (loadFromStorage ⟨initialForm, [], [("K", RawValue.invalid "")],
        "", "", []⟩ "K").saveMsg = "No saved data for this key"
    ∧ (loadFromStorage ⟨initialForm, [],
        [("K", RawValue.invalid "not a json text")], "", "", []⟩ "K").saveMsg =
      "Load failed."
    ∧ (loadFromStorage ⟨initialForm, [], [("K", RawValue.json Json.null)],
        "", "", []⟩ "K").saveMsg = "Load failed."
    ∧ (loadFromStorage ⟨initialForm, [],
        [("K", RawValue.json (Json.obj [("form",
          Json.obj [("vessel", Json.str "EVIL")])]))], "", "", []⟩ "K").form =
      mergeLoaded initialForm
        (decodePartialForm (Json.obj [("vessel", Json.str "EVIL")]))
    ∧ (∃ raw v, ("B", raw) ∈ ([("B", RawValue.json (Json.obj []))] : Store)
        ∧ parseRaw raw = some v) :=
  ⟨((loadFromStorage_spec ⟨initialForm, [], [], "", "", []⟩ "K").1 rfl).2.2.2,
   ((loadFromStorage_spec ⟨initialForm, [], [("K", RawValue.invalid "")],
       "", "", []⟩ "K").2.1 (RawValue.invalid "") rfl (by decide)).2.2.2,
   ((loadFromStorage_spec ⟨initialForm, [],
       [("K", RawValue.invalid "not a json text")], "", "", []⟩ "K").2.2.1
       (RawValue.invalid "not a json text") rfl (by decide) rfl).2.2.2,
   ((loadFromStorage_spec ⟨initialForm, [], [("K", RawValue.json Json.null)],
       "", "", []⟩ "K").2.2.2.1 (RawValue.json Json.null) rfl rfl).2.2.2,
   ((loadFromStorage_spec ⟨initialForm, [],
       [("K", RawValue.json (Json.obj [("form",
         Json.obj [("vessel", Json.str "EVIL")])]))], "", "", []⟩ "K").2.2.2.2.1
       (RawValue.json (Json.obj [("form", Json.obj [("vessel", Json.str "EVIL")])]))
       (Json.obj [("form", Json.obj [("vessel", Json.str "EVIL")])])
       (Json.obj [("vessel", Json.str "EVIL")]) rfl rfl rfl rfl).1,
   (loadFromStorage_spec ⟨initialForm, [], [("B", RawValue.json (Json.obj []))],
       "", "", []⟩ "B").2.2.2.2.2
     { key := "B", label := "B", preview := none }
     (by simp [buildSavedList, savedEntry, parseRaw, Json.truthy,
           Json.isObjectLike, previewOf, Json.getField, List.mergeSort])⟩

-- -----------------------------
-- C9: logo URL tracks the company until first manual edit
-- -----------------------------

theorem handleChange_logoTouched_mono (st : FormState) (name : FieldName)
    (v : String) (h : st.logoTouched = true) :
    (handleChange st name v).logoTouched = true := by
  simp [handleChange, h, apply_ite FormState.logoTouched]

theorem handleChange_company_sticky (st : FormState) (v : String)
    (h : st.logoTouched = true) :
    (handleChange st FieldName.companyId v).form.logoUrl = st.form.logoUrl := by
  simp [handleChange, h, setFormField]

theorem foldl_company_sticky (vs : List String) (st : FormState)
    (h : st.logoTouched = true) :
    (vs.foldl (fun s v => handleChange s FieldName.companyId v) st).form.logoUrl =
      st.form.logoUrl := by
  induction vs generalizing st with
  | nil => rfl
  | cons v rest ih =>
    have h2 := handleChange_logoTouched_mono st FieldName.companyId v h
    simp only [List.foldl_cons]
    rw [ih (handleChange st FieldName.companyId v) h2,
      handleChange_company_sticky st v h]

/-- C9: while the logo has not been manually edited, changing the
company sets the logo URL to the new company's default; a manual logo
edit sets the touched flag; the flag is never cleared by any input
event; and once it is set, no sequence of company changes modifies the
logo URL. -/
theorem logoUrl_sticky_spec (st : FormState) :
    (∀ c : CompanyId, st.logoTouched = false → c ≠ st.form.companyId →
      (handleChange st FieldName.companyId (encodeCompanyId c)).form.logoUrl =
        companyLogoUrl c)
    ∧ (∀ v : String, st.logoTouched = true →
      (handleChange st FieldName.companyId v).form.logoUrl = st.form.logoUrl)
    ∧ (∀ v : String, (handleChange st FieldName.logoUrl v).logoTouched = true)
    ∧ (∀ name v, st.logoTouched = true →
      (handleChange st name v).logoTouched = true)
    ∧ (st.logoTouched = true → ∀ vs : List String,
      (vs.foldl (fun s v => handleChange s FieldName.companyId v) st).form.logoUrl =
        st.form.logoUrl) := by
  refine ⟨?_, ?_, ?_, ?_, ?_⟩
  · intro c h hne
    cases c <;>
      simp [handleChange, setFormField, decodeCompanyId, encodeCompanyId, h,
        hne, companyLogoUrl]
  · intro v h
    exact handleChange_company_sticky st v h
  · intro v
    simp [handleChange, apply_ite FormState.logoTouched]
  · intro name v h
    exact handleChange_logoTouched_mono st name v h
  · intro h vs
    exact foldl_company_sticky vs st h

/-- C9 witness: from the initial state, switching to ITI retargets the
logo; after a manual edit, switching back to IMI leaves it alone. -/
theorem logoUrl_sticky_spec_witness :
    (handleChange ⟨initialForm, false⟩
        FieldName.companyId (encodeCompanyId CompanyId.ITI)).form.logoUrl =
      companyLogoUrl CompanyId.ITI
    ∧ (handleChange ⟨{ initialForm with logoUrl := "custom" }, true⟩
        FieldName.companyId "ITI").form.logoUrl = "custom" :=
  ⟨(logoUrl_sticky_spec ⟨initialForm, false⟩).1
      CompanyId.ITI rfl (by decide),
   (logoUrl_sticky_spec ⟨{ initialForm with logoUrl := "custom" }, true⟩).2.1
      "ITI" rfl⟩

end IMI
